import Mathlib

/-
Verification of the OBS "ducker" audio filter (sidechain-gated dynamics
engine).  The C source is shallowly embedded: C floats are modelled as real
numbers, byte sizes of the per-channel circular buffers are modelled in
sample units (every push/pop in the source moves a multiple of
sizeof(float) bytes, so byte counts are always 4 * sample counts and all
size comparisons translate verbatim), and per-channel arrays are modelled
as lists of sample lists (channel index first).
-/

namespace Ducker

/-- MAX_AUDIO_CHANNELS from the OBS headers: the fixed number of per-channel
ring-buffer slots in `struct ducker_data`. -/
def MAX_AUDIO_CHANNELS : Nat := 8

/-! ### dB-domain arithmetic (media-io/audio-math.h)

Modelled from the spec: the repository's `mul_to_db` / `db_to_mul` helpers
(from `media-io/audio-math.h`, not included under src/) convert between a
linear amplitude and decibels, with `mul_to_db 0 = -infinity` ("curLevel == 0
yields curLevelDb = -infinity conceptually").  We represent the dB domain as
`WithBot Real`, with bottom playing the role of -infinity. -/

/-- Modelled from the spec: `mul_to_db` from media-io/audio-math.h.
Linear amplitude to decibels; 0 maps to -infinity (bottom). -/
noncomputable def mul_to_db (x : Real) : WithBot Real :=
  if x = 0 then ⊥ else ((20 * Real.logb 10 x : Real) : WithBot Real)

/-- Modelled from the spec: `db_to_mul` from media-io/audio-math.h,
`db_to_mul db = 10 ^ (db / 20)` (a strictly positive amplitude). -/
noncomputable def db_to_mul (db : Real) : Real :=
  (10 : Real) ^ (db / 20)

/-- IEEE subtraction on the dB domain: `-infinity - finite = -infinity`.
The second operand is -infinity only if a configured linear threshold were 0,
which cannot happen (thresholds are `db_to_mul` of finite dB values, hence
strictly positive); we send that unreachable case to bottom as well. -/
def wsub : WithBot Real → WithBot Real → WithBot Real
  | ⊥, _ => ⊥
  | _, ⊥ => ⊥
  | (x : Real), (y : Real) => ((x - y : Real) : WithBot Real)

/-- IEEE `fmaxf` of a finite float against a possibly -infinite dB value:
the result is always finite. -/
def wmax (x : Real) : WithBot Real → Real
  | ⊥ => x
  | (y : Real) => max x y

/-- Per-sample gain computation of `ducker_filter_audio` (src/unnamed/part_000
lines 468-473): dB excess over the compression threshold, ratio compression,
instantaneous limiter, scaling by the gate, and conversion back to a linear
multiplier. -/
noncomputable def gainCoefficient (gate ratio threshold limiter_threshold cur_level : Real) :
    Real :=
  let cur_level_db := mul_to_db cur_level
  let db_Delta : Real := wmax 0 (wsub cur_level_db (mul_to_db threshold))
  let gain_reduction : Real :=
    wmax (db_Delta - db_Delta / ratio) (wsub cur_level_db (mul_to_db limiter_threshold))
  let scaled := gain_reduction * gate
  if 0 < scaled then 1 / db_to_mul scaled else 1

/-! ### Envelope / gate state machine -/

/-- The envelope-state fields of `struct ducker_data` that the per-sample
loop of `ducker_filter_audio` mutates. -/
structure EnvState where
  isOpen : Bool
  held_time_s : Real
  gate : Real

/-- The per-instance parameter fields read (into locals) at the top of
`ducker_filter_audio` (src/unnamed/part_000 lines 390-399). -/
structure GateParams where
  ratio : Real
  threshold : Real
  open_threshold : Real
  close_threshold : Real
  limiter_threshold : Real
  attack_rate : Real
  release_rate : Real
  hold_time : Real
  sample_period_s : Real

/-- One per-sample update of the comparator and gate (src/unnamed/part_000
lines 435-467): hysteresis comparator on the sidechain level, then the
hold/attack/release gate update. -/
noncomputable def envStep (p : GateParams) (e : EnvState) (cur_sc_level : Real) : EnvState :=
  let e1 :=
    if p.open_threshold < cur_sc_level then
      { e with isOpen := true, held_time_s := 0 }
    else if cur_sc_level < p.close_threshold then
      { e with isOpen := false }
    else e
  if e1.isOpen = false then
    if e1.held_time_s < p.hold_time then
      { e1 with
        held_time_s := e1.held_time_s + p.sample_period_s,
        gate := min 1 (e1.gate + p.attack_rate) }
    else
      { e1 with gate := max 0 (e1.gate - p.release_rate) }
  else
    { e1 with gate := min 1 (e1.gate + p.attack_rate) }

/-! ### Per-channel loops

Every buffer operation in the source is a C loop `for (i = 0; i < k; i++)`
over the first `k` channels of a fixed-size channel array.  `onFirstAux f i k l`
applies `f` (which receives the channel index) to the first `k` entries of
`l`, the index of the first entry being `i`; `onFirst f k l` starts at 0. -/

def onFirstAux (f : Nat → List Real → List Real) : Nat → Nat → List (List Real) → List (List Real)
  | _, _, [] => []
  | _, 0, l => l
  | i, k + 1, b :: rest => f i b :: onFirstAux f (i + 1) k rest

def onFirst (f : Nat → List Real → List Real) (k : Nat) (l : List (List Real)) :
    List (List Real) :=
  onFirstAux f 0 k l

/-! ### The filter instance state -/

/-- The fields of `struct ducker_data` (src/unnamed/part_000 lines 63-96)
carrying algorithmic state.  The two mutexes and the logging context are
omitted (pure synchronisation / diagnostics); the weak sidechain handle is
modelled as an optional abstract identifier.  Ring-buffer contents and
scratch-buffer contents are lists of samples, channel index first;
`sidechain_data` and `sidechain_buf` have `MAX_AUDIO_CHANNELS` entries. -/
structure DuckerData where
  audio_buf_len : Nat
  ratio : Real
  threshold_mul : Real
  attack_rate : Real
  release_rate : Real
  open_threshold_mul : Real
  close_threshold_mul : Real
  hold_time_s : Real
  held_time_s : Real
  limiter_threshold_mul : Real
  sample_period_s : Real
  gate : Real
  isOpen : Bool
  num_channels : Nat
  sample_rate : Nat
  sidechain_check_time : Nat
  weak_sidechain : Option Nat
  sidechain_name : Option String
  sidechain_data : List (List Real)
  sidechain_buf : List (List Real)
  max_sidechain_frames : Nat

/-- Model of `resize_env_buffer` (src/unnamed/part_000 lines 144-152): records the new
scratch length and reallocates the per-channel scratch buffers of the first
`num_channels` channels to `len` samples.  `brealloc` preserves the prefix of
the old contents; freshly allocated tail memory is uninitialised and is
modelled as zeros (it is never read before being overwritten). -/
def resize_env_buffer (cd : DuckerData) (len : Nat) : DuckerData :=
  { cd with
    audio_buf_len := len,
    sidechain_buf :=
      onFirst (fun _ b => b.take len ++ List.replicate (len - b.length) 0)
        cd.num_channels cd.sidechain_buf }

/-- Model of `get_sidechain_data` (src/unnamed/part_000 lines 115-142): the consumer
side of the ring-buffer hand-off.  `data_size` is `audio_buf_len` samples
(`audio_buf_len * sizeof(float)` bytes in C).  The high-water mark is raised
to `num_samples` first; then, if channel 0's ring buffer holds fewer than
`data_size` samples, the scratch buffers are zero-filled and the ring buffers
are left untouched, otherwise the oldest `data_size` samples of each of the
first `num_channels` ring buffers are popped into the scratch buffers. -/
def get_sidechain_data (cd : DuckerData) (num_samples : Nat) : DuckerData :=
  let data_size := cd.audio_buf_len
  if data_size = 0 then cd
  else
    let cd := { cd with max_sidechain_frames := max cd.max_sidechain_frames num_samples }
    if (cd.sidechain_data.getD 0 []).length < data_size then
      { cd with
        sidechain_buf :=
          onFirst (fun _ _ => List.replicate data_size 0) cd.num_channels cd.sidechain_buf }
    else
      { cd with
        sidechain_buf :=
          onFirst (fun i _ => (cd.sidechain_data.getD i []).take data_size)
            cd.num_channels cd.sidechain_buf,
        sidechain_data :=
          onFirst (fun _ q => q.drop data_size) cd.num_channels cd.sidechain_data }

/-- One block delivered to the capture callback: `audio_data->frames` and
`audio_data->data[i]` (one sample list per channel), plus the muted flag. -/
structure CaptureBlock where
  frames : Nat
  data : List (List Real)
  muted : Bool

/-- Model of `sidechain_capture` (src/unnamed/part_000 lines 180-226): the producer
side of the ring-buffer hand-off.  Raises the high-water mark to the incoming
block size; if the (new) high-water mark is 0 nothing happens; otherwise, if
channel 0's backlog exceeds twice the high-water mark, one high-water mark's
worth of oldest samples is dropped from each of the first `num_channels` ring
buffers; finally one block of `frames` samples (zeros when muted) is appended
to each of those ring buffers. -/
def sidechain_capture (cd : DuckerData) (b : CaptureBlock) : DuckerData :=
  let cd := { cd with max_sidechain_frames := max cd.max_sidechain_frames b.frames }
  let expected_size := cd.max_sidechain_frames
  if expected_size = 0 then cd
  else
    let cd :=
      if expected_size * 2 < (cd.sidechain_data.getD 0 []).length then
        { cd with
          sidechain_data :=
            onFirst (fun _ q => q.drop expected_size) cd.num_channels cd.sidechain_data }
      else cd
    if b.muted then
      { cd with
        sidechain_data :=
          onFirst (fun _ q => q ++ List.replicate b.frames 0)
            cd.num_channels cd.sidechain_data }
    else
      { cd with
        sidechain_data :=
          onFirst (fun i q => q ++ (b.data.getD i []))
            cd.num_channels cd.sidechain_data }

/-! ### Settings update -/

/-- The raw settings read by `ducker_update` from the `obs_data_t` object
(ratio and the four thresholds as doubles, the three times as integer
milliseconds, and the configured sidechain source name). -/
structure DuckerSettings where
  ratio : Real
  threshold_db : Real
  open_threshold_db : Real
  close_threshold_db : Real
  limiter_threshold_db : Real
  attack_time_ms : Int
  release_time_ms : Int
  hold_time_ms : Int
  ducking_source : String

/-- Model of `ms_to_secf` (src/unnamed/part_000 lines 155-158). -/
noncomputable def ms_to_secf (ms : Int) : Real := (ms : Real) / 1000

/-- Model of `ducker_update` (src/unnamed/part_000 lines 267-355).  `sample_rate` and
`num_channels` stand for the host's global audio configuration
(`audio_output_get_sample_rate` / `audio_output_get_channels`) and `now` for
`os_gettime_ns()`.  Derives the linear thresholds and per-sample rates,
then reconciles the configured sidechain name with the current binding
(dropping the binding when the name is cleared or changed and rewinding the
resolution timer on a change), and finally sizes the scratch buffer to 10 ms
of audio if it has never been sized.  The capture-callback unregistration on
the dropped binding is an external effect with no bearing on this state. -/
noncomputable def ducker_update (cd : DuckerData) (s : DuckerSettings)
    (sample_rate num_channels now : Nat) : DuckerData :=
  let cd := { cd with
    ratio := s.ratio,
    threshold_mul := db_to_mul s.threshold_db,
    open_threshold_mul := db_to_mul s.open_threshold_db,
    close_threshold_mul := db_to_mul s.close_threshold_db,
    limiter_threshold_mul := db_to_mul s.limiter_threshold_db,
    attack_rate := 1 / (ms_to_secf s.attack_time_ms * (sample_rate : Real)),
    release_rate := 1 / (ms_to_secf s.release_time_ms * (sample_rate : Real)),
    hold_time_s := ms_to_secf s.hold_time_ms,
    num_channels := num_channels,
    sample_rate := sample_rate,
    sample_period_s := 1 / (sample_rate : Real) }
  let valid_sidechain := s.ducking_source ≠ "" ∧ s.ducking_source ≠ "none"
  let cd :=
    if ¬ valid_sidechain then
      { cd with weak_sidechain := none, sidechain_name := none }
    else if cd.sidechain_name ≠ some s.ducking_source then
      { cd with
        weak_sidechain := none,
        sidechain_name := some s.ducking_source,
        sidechain_check_time := now - 3000000000 }
    else cd
  let sample_len := sample_rate * 10 / 1000
  if cd.audio_buf_len = 0 then resize_env_buffer cd sample_len else cd

/-! ### The audio driver -/

/-- Peak over the first `channels` channels of sample index `i`
(src/unnamed/part_000 lines 424-431): `fabsf` of channel 0's sample, folded
with `fmaxf` of the absolute values of all `channels` channels' samples. -/
noncomputable def sampleLevel (channels : Nat) (m : List (List Real)) (i : Nat) : Real :=
  (m.take channels).foldl (fun acc ch => max acc |ch.getD i 0|) |(m.getD 0 []).getD i 0|

/-- The per-sample loop of `ducker_filter_audio` (src/unnamed/part_000 lines
422-478), processing sample indices `i, i+1, ...` while `n` counts the
remaining iterations: peak levels of the primary block and the sidechain
scratch block at index `i`, the envelope/gate update, and the in-place scale
of every channel's sample `i` by the resulting gain coefficient. -/
noncomputable def duckLoopFrom (p : GateParams) (channels : Nat) (scbuf : List (List Real)) :
    Nat → Nat → EnvState → List (List Real) → EnvState × List (List Real)
  | _, 0, env, adata => (env, adata)
  | i, n + 1, env, adata =>
    let cur_level := sampleLevel channels adata i
    let cur_sc_level := sampleLevel channels scbuf i
    let env := envStep p env cur_sc_level
    let gain_reduction :=
      gainCoefficient env.gate p.ratio p.threshold p.limiter_threshold cur_level
    let adata := onFirst (fun _ ch => ch.set i (ch.getD i 0 * gain_reduction)) channels adata
    duckLoopFrom p channels scbuf (i + 1) n env adata

/-- Model of `ducker_filter_audio` (src/unnamed/part_000 lines 385-482): snapshot the
parameters, return immediately on an empty block, grow the scratch buffer if
the block is larger than it, read the weak sidechain binding; without a
binding the block passes through untouched, otherwise pull one scratch
block's worth of sidechain data and run the per-sample loop over the block,
the primary samples being scaled in place. -/
noncomputable def ducker_filter_audio (cd : DuckerData) (audio : List (List Real))
    (num_samples : Nat) : DuckerData × List (List Real) :=
  let p : GateParams :=
    { ratio := cd.ratio
      threshold := cd.threshold_mul
      close_threshold := cd.close_threshold_mul
      open_threshold := cd.open_threshold_mul
      release_rate := cd.release_rate
      attack_rate := cd.attack_rate
      hold_time := cd.hold_time_s
      sample_period_s := cd.sample_period_s
      limiter_threshold := cd.limiter_threshold_mul }
  if num_samples = 0 then (cd, audio)
  else
    let cd := if cd.audio_buf_len < num_samples then resize_env_buffer cd num_samples else cd
    match cd.weak_sidechain with
    | none => (cd, audio)
    | some _ =>
      let cd := get_sidechain_data cd num_samples
      let r := duckLoopFrom p cd.num_channels cd.sidechain_buf 0 num_samples
        { isOpen := cd.isOpen, held_time_s := cd.held_time_s, gate := cd.gate } audio
      ({ cd with isOpen := r.1.isOpen, held_time_s := r.1.held_time_s, gate := r.1.gate },
        r.2)

/-- The state of a freshly created instance before its first settings update
(`ducker_create`, src/unnamed/part_000 lines 357-383: `bzalloc` zeroes every
field, then `isOpen`, `held_time_s` and `audio_buf_len` are set explicitly),
with `num_channels` taken as the channel count the first `ducker_update`
installs (the update touches no ring-buffer state). -/
def ducker_init (nc : Nat) : DuckerData :=
  { audio_buf_len := 0
    ratio := 0
    threshold_mul := 0
    attack_rate := 0
    release_rate := 0
    open_threshold_mul := 0
    close_threshold_mul := 0
    hold_time_s := 0
    held_time_s := 0
    limiter_threshold_mul := 0
    sample_period_s := 0
    gate := 0
    isOpen := false
    num_channels := nc
    sample_rate := 0
    sidechain_check_time := 0
    weak_sidechain := none
    sidechain_name := none
    sidechain_data := List.replicate MAX_AUDIO_CHANNELS []
    sidechain_buf := List.replicate MAX_AUDIO_CHANNELS []
    max_sidechain_frames := 0 }

/-- Iterated envelope updates on a constant sidechain level `sc`, starting
from the state the comparator leaves right after the gate last opened
(`isOpen = true`, `held_time_s = 0`, arbitrary gate level `g0`): the
trajectory of the per-sample loop once the sidechain has dropped. -/
noncomputable def envIter (p : GateParams) (sc g0 : Real) : Nat → EnvState
  | 0 => { isOpen := true, held_time_s := 0, gate := g0 }
  | n + 1 => envStep p (envIter p sc g0 n) sc

/-- Ring-buffer well-formedness carried across capture pushes: the channel
array has its fixed `MAX_AUDIO_CHANNELS` slots, the active channel count fits
in it, all active channels hold equally many samples (the lockstep invariant
of the source), and the backlog is within three high-water marks. -/
def BufInv (cd : DuckerData) : Prop :=
  cd.sidechain_data.length = MAX_AUDIO_CHANNELS ∧
  cd.num_channels ≤ MAX_AUDIO_CHANNELS ∧
  (∀ i < cd.num_channels,
    (cd.sidechain_data.getD i []).length = (cd.sidechain_data.getD 0 []).length) ∧
  (cd.sidechain_data.getD 0 []).length ≤ 3 * cd.max_sidechain_frames

/-- A mono instance whose scratch buffer holds 2 samples while every ring
buffer (the active one included) holds a single buffered sample. -/
def c1state : DuckerData :=
  { ducker_init 1 with
    audio_buf_len := 2
    sidechain_data := [[1], [1], [1], [1], [1], [1], [1], [1]]
    sidechain_buf := [[0, 0], [], [], [], [], [], [], []] }

/-- A mono instance whose scratch buffer holds 1 sample while its ring
buffer holds two buffered samples. -/
def c1wstate : DuckerData :=
  { ducker_init 1 with
    audio_buf_len := 1
    sidechain_data := [[5, 6], [], [], [], [], [], [], []]
    sidechain_buf := [[0], [], [], [], [], [], [], []] }

/-- One capture-callback block: a single unmuted frame on one channel. -/
def c2block : CaptureBlock := { frames := 1, data := [[0]], muted := false }

/-- A concrete parameter snapshot with the claimed hold configuration:
`hold_time = 0.2` seconds at a 48000 Hz sample rate. -/
noncomputable def c5params : GateParams :=
  { ratio := 0
    threshold := 0
    open_threshold := 1
    close_threshold := 1 / 2
    limiter_threshold := 0
    attack_rate := 0
    release_rate := 0
    hold_time := 0.2
    sample_period_s := 1 / 48000 }

/-- A concrete parameter snapshot with open threshold 1 and close threshold
0 (a hysteresis dead band of `[0, 1]`) and zero rates, used to instantiate
the envelope theorems. -/
def c6params : GateParams :=
  { ratio := 0
    threshold := 0
    open_threshold := 1
    close_threshold := 0
    limiter_threshold := 0
    attack_rate := 0
    release_rate := 0
    hold_time := 0
    sample_period_s := 0 }

/-- A concrete settings object used to instantiate the update theorem. -/
def c9settings : DuckerSettings :=
  { ratio := 2
    threshold_db := -18
    open_threshold_db := -30
    close_threshold_db := -30
    limiter_threshold_db := 0
    attack_time_ms := 6
    release_time_ms := 60
    hold_time_ms := 200
    ducking_source := "none" }

/-- The state of a fresh mono instance after three one-frame capture pushes
with no intervening pop. -/
def c2state : DuckerData :=
  sidechain_capture (sidechain_capture (sidechain_capture (ducker_init 1) c2block) c2block)
    c2block

/-! ### Helper lemmas -/

theorem length_onFirstAux (f : Nat → List Real → List Real) :
    ∀ (i k : Nat) (l : List (List Real)), (onFirstAux f i k l).length = l.length := by
  intro i k l
  induction l generalizing i k with
  | nil => cases k <;> rfl
  | cons b rest ih =>
    cases k with
    | zero => rfl
    | succ k => simp [onFirstAux, ih]

theorem length_onFirst (f : Nat → List Real → List Real) (k : Nat) (l : List (List Real)) :
    (onFirst f k l).length = l.length :=
  length_onFirstAux f 0 k l

theorem getD_onFirstAux_lt (f : Nat → List Real → List Real) :
    ∀ (i k j : Nat) (l : List (List Real)), j < k → j < l.length →
      (onFirstAux f i k l).getD j [] = f (i + j) (l.getD j []) := by
  intro i k j l
  induction l generalizing i k j with
  | nil => intro _ h; simp at h
  | cons b rest ih =>
    intro hjk hjl
    cases k with
    | zero => omega
    | succ k =>
      cases j with
      | zero => simp [onFirstAux]
      | succ j =>
        have h1 : j < k := by omega
        have h2 : j < rest.length := by simpa using Nat.lt_of_succ_lt_succ hjl
        simp only [onFirstAux, List.getD_cons_succ]
        rw [ih (i + 1) k j h1 h2]
        congr 1
        omega

theorem getD_onFirstAux_ge (f : Nat → List Real → List Real) :
    ∀ (i k j : Nat) (l : List (List Real)), k ≤ j →
      (onFirstAux f i k l).getD j [] = l.getD j [] := by
  intro i k j l
  induction l generalizing i k j with
  | nil => intro _; cases k <;> rfl
  | cons b rest ih =>
    intro hkj
    cases k with
    | zero => rfl
    | succ k =>
      cases j with
      | zero => omega
      | succ j =>
        simp only [onFirstAux, List.getD_cons_succ]
        exact ih (i + 1) k j (by omega)

theorem getD_onFirst_lt (f : Nat → List Real → List Real) (k j : Nat) (l : List (List Real))
    (hjk : j < k) (hjl : j < l.length) :
    (onFirst f k l).getD j [] = f j (l.getD j []) := by
  simpa using getD_onFirstAux_lt f 0 k j l hjk hjl

theorem getD_onFirst_ge (f : Nat → List Real → List Real) (k j : Nat) (l : List (List Real))
    (hkj : k ≤ j) :
    (onFirst f k l).getD j [] = l.getD j [] :=
  getD_onFirstAux_ge f 0 k j l hkj

theorem mul_to_db_zero : mul_to_db 0 = ⊥ := if_pos rfl

theorem wsub_bot (y : WithBot Real) : wsub ⊥ y = ⊥ := by
  cases y <;> rfl

theorem wmax_bot (x : Real) : wmax x ⊥ = x := rfl

theorem wmax_coe (x y : Real) : wmax x ((y : Real) : WithBot Real) = max x y := rfl

/-- The comparator (src/unnamed/part_000 lines 435-444) alone decides the
next `isOpen` value; the gate update below it never changes `isOpen`. -/
theorem envStep_isOpen (p : GateParams) (e : EnvState) (sc : Real) :
    (envStep p e sc).isOpen =
      if p.open_threshold < sc then true
      else if sc < p.close_threshold then false
      else e.isOpen := by
  unfold envStep
  split_ifs <;> simp_all <;> split_ifs <;> simp_all

/-! ### Claims -/

/-- Claim C10: processing a block of 0 frames returns the buffer immediately
and unchanged, and the whole instance state is exactly as before the call
(in particular `gate`, `isOpen`, `held_time_s`, the scratch-buffer length and
the sidechain ring buffers). -/
theorem claim_c10_zero_frames (cd : DuckerData) (audio : List (List Real)) :
    ducker_filter_audio cd audio 0 = (cd, audio) := by
  simp [ducker_filter_audio]

/-- Claim C3: while no sidechain is bound (the weak binding is null), the
process-one-block operation returns the input samples unchanged and performs
no gain computation: the envelope state and the ring buffers are untouched. -/
theorem claim_c3_no_sidechain_passthrough (cd : DuckerData) (audio : List (List Real))
    (num_samples : Nat) (h : cd.weak_sidechain = none) :
    (ducker_filter_audio cd audio num_samples).2 = audio ∧
    (ducker_filter_audio cd audio num_samples).1.gate = cd.gate ∧
    (ducker_filter_audio cd audio num_samples).1.isOpen = cd.isOpen ∧
    (ducker_filter_audio cd audio num_samples).1.held_time_s = cd.held_time_s ∧
    (ducker_filter_audio cd audio num_samples).1.sidechain_data = cd.sidechain_data ∧
    (ducker_filter_audio cd audio num_samples).1.max_sidechain_frames
      = cd.max_sidechain_frames := by
  unfold ducker_filter_audio
  by_cases hn : num_samples = 0
  · simp [hn]
  · by_cases hb : cd.audio_buf_len < num_samples
    · simp [hn, hb, resize_env_buffer, h]
    · simp [hn, hb, h]

/-- Witness for claim C3 at a concrete unbound instance and block. -/
theorem claim_c3_witness :
    (ducker_init 1).weak_sidechain = none ∧
    (ducker_filter_audio (ducker_init 1) [[1, 2]] 2).2 = [[1, 2]] :=
  ⟨rfl, (claim_c3_no_sidechain_passthrough (ducker_init 1) [[1, 2]] 2 rfl).1⟩

/-- Claim C8: when the primary peak level is 0, the final gain multiplier is
exactly 1, for every gate, ratio, threshold and limiter threshold (silence is
never attenuated). -/
theorem claim_c8_silence_not_attenuated (gate ratio threshold limiter_threshold : Real) :
    gainCoefficient gate ratio threshold limiter_threshold 0 = 1 := by
  simp only [gainCoefficient, mul_to_db_zero, wsub_bot, wmax_bot, zero_div, sub_zero, zero_mul]
  norm_num

/-- Claim C4: one per-sample envelope/gate update keeps the gate inside
`[0, 1]`, for every starting gate in `[0, 1]` and non-negative attack and
release rates. -/
theorem claim_c4_gate_clamped (p : GateParams) (e : EnvState) (sc : Real)
    (h0 : 0 ≤ e.gate) (h1 : e.gate ≤ 1)
    (ha : 0 ≤ p.attack_rate) (hr : 0 ≤ p.release_rate) :
    0 ≤ (envStep p e sc).gate ∧ (envStep p e sc).gate ≤ 1 := by
  unfold envStep
  split_ifs <;> try simp_all
  all_goals try split_ifs
  all_goals try simp_all [le_min_iff, min_le_iff, le_max_iff, max_le_iff]
  all_goals try constructor
  all_goals linarith

/-- Witness for claim C4 at a concrete state and parameters. -/
theorem claim_c4_witness :
    ((0 : Real) ≤ (1 / 2 : Real) ∧ (1 / 2 : Real) ≤ 1) ∧
    0 ≤ (envStep c6params ⟨false, 0, 1 / 2⟩ 0).gate ∧
    (envStep c6params ⟨false, 0, 1 / 2⟩ 0).gate ≤ 1 :=
  ⟨by norm_num,
    claim_c4_gate_clamped c6params ⟨false, 0, 1 / 2⟩ 0 (by norm_num) (by norm_num)
      (by norm_num [c6params]) (by norm_num [c6params])⟩

/-- The final step of the gain computation always produces a multiplier in
`(0, 1]`: `1 / db_to_mul x` for a strictly positive dB reduction `x`, and 1
otherwise. -/
theorem final_gain_unit (x : Real) :
    0 < (if 0 < x then 1 / db_to_mul x else 1) ∧
    (if 0 < x then 1 / db_to_mul x else 1) ≤ 1 := by
  by_cases h : 0 < x
  · rw [if_pos h]
    have hpos : 0 < db_to_mul x := Real.rpow_pos_of_pos (by norm_num) _
    have h1 : 1 ≤ db_to_mul x := by
      have h2 : (10 : Real) ^ (0 : Real) ≤ (10 : Real) ^ (x / 20) :=
        Real.rpow_le_rpow_of_exponent_le (by norm_num)
          (div_nonneg h.le (by norm_num))
      simpa [Real.rpow_zero] using h2
    exact ⟨by positivity, by rw [div_le_one hpos]; exact h1⟩
  · rw [if_neg h]
    norm_num

/-- Claim C7: the per-sample gain multiplier always lies in `(0, 1]` — the
filter never amplifies — for every gate in `[0, 1]`, ratio at least 1,
non-negative primary peak level and any thresholds. -/
theorem claim_c7_gain_in_unit_interval (gate ratio threshold limiter_threshold cur_level : Real)
    (hg0 : 0 ≤ gate) (hg1 : gate ≤ 1) (hratio : 1 ≤ ratio) (hlev : 0 ≤ cur_level) :
    0 < gainCoefficient gate ratio threshold limiter_threshold cur_level ∧
    gainCoefficient gate ratio threshold limiter_threshold cur_level ≤ 1 :=
  final_gain_unit _

/-- Witness for claim C7 at concrete parameters. -/
theorem claim_c7_witness :
    ((0 : Real) ≤ 1 ∧ (1 : Real) ≤ 1 ∧ (1 : Real) ≤ 2 ∧ (0 : Real) ≤ 1) ∧
    0 < gainCoefficient 1 2 (1 / 2) 1 1 ∧ gainCoefficient 1 2 (1 / 2) 1 1 ≤ 1 :=
  ⟨by norm_num,
    claim_c7_gain_in_unit_interval 1 2 (1 / 2) 1 1 (by norm_num) (by norm_num) (by norm_num)
      (by norm_num)⟩

/-- Claim C6: inside the hysteresis dead band (`closeThreshold ≤ scLevel ≤
openThreshold`) the comparator leaves `isOpen` unchanged; and a sidechain
whose level always stays strictly below the open threshold never sets
`isOpen` to true. -/
theorem claim_c6_hysteresis_dead_band (p : GateParams) :
    (∀ (e : EnvState) (sc : Real),
      p.close_threshold ≤ sc → sc ≤ p.open_threshold →
        (envStep p e sc).isOpen = e.isOpen) ∧
    (∀ (levels : List Real) (e : EnvState),
      (∀ l ∈ levels, l < p.open_threshold) → e.isOpen = false →
        (levels.foldl (envStep p) e).isOpen = false) := by
  constructor
  · intro e sc h1 h2
    rw [envStep_isOpen, if_neg (not_lt.mpr h2), if_neg (not_lt.mpr h1)]
  · intro levels
    induction levels with
    | nil => intro e _ he; simpa using he
    | cons l rest ih =>
      intro e hall he
      have hl : l < p.open_threshold := hall l (by simp)
      have hstep : (envStep p e l).isOpen = false := by
        rw [envStep_isOpen, if_neg (not_lt.mpr hl.le)]
        split_ifs <;> simp [he]
      simpa using ih (envStep p e l) (fun x hx => hall x (by simp [hx])) hstep

/-- Witness for claim C6: a level of 1/2 inside the dead band `[0, 1]` of a
concrete parameter set, and a two-sample ramp below the open threshold. -/
theorem claim_c6_witness :
    (c6params.close_threshold ≤ (1 / 2 : Real) ∧ (1 / 2 : Real) ≤ c6params.open_threshold ∧
      (envStep c6params ⟨false, 0, 0⟩ (1 / 2)).isOpen = (⟨false, 0, 0⟩ : EnvState).isOpen) ∧
    ((∀ l ∈ [(1 / 2 : Real), 0], l < c6params.open_threshold) ∧
      ([(1 / 2 : Real), 0].foldl (envStep c6params) ⟨false, 0, 0⟩).isOpen = false) := by
  have hmem : ∀ l ∈ [(1 / 2 : Real), 0], l < c6params.open_threshold := by
    intro l hl
    simp only [List.mem_cons, List.mem_singleton, List.not_mem_nil, or_false] at hl
    rcases hl with rfl | rfl <;> norm_num [c6params]
  refine ⟨⟨by norm_num [c6params], by norm_num [c6params], ?_⟩, ⟨hmem, ?_⟩⟩
  · exact (claim_c6_hysteresis_dead_band c6params).1 ⟨false, 0, 0⟩ (1 / 2)
      (by norm_num [c6params]) (by norm_num [c6params])
  · exact (claim_c6_hysteresis_dead_band c6params).2 [(1 / 2 : Real), 0] ⟨false, 0, 0⟩ hmem rfl

/-- Throughout the hold window the elapsed hold time advances by exactly one
sample period per sample: after `k ≤ 9600` samples below the close threshold
(hold 0.2 s, period 1/48000 s), `held_time_s = k / 48000`. -/
theorem envIter_held (p : GateParams) (sc g0 : Real)
    (hhold : p.hold_time = 0.2) (hper : p.sample_period_s = 1 / 48000)
    (hco : p.close_threshold ≤ p.open_threshold) (hsc : sc < p.close_threshold) :
    ∀ k, k ≤ 9600 → (envIter p sc g0 k).held_time_s = (k : Real) / 48000 := by
  have hopen : ¬ (p.open_threshold < sc) := not_lt.mpr (hsc.le.trans hco)
  intro k
  induction k with
  | zero => intro _; simp [envIter]
  | succ k ih =>
    intro hk
    have ihh := ih (by omega)
    have hheld : (envIter p sc g0 k).held_time_s < p.hold_time := by
      rw [ihh, hhold]
      rw [div_lt_iff (by norm_num : (0 : Real) < 48000)]
      have hkr : (k : Real) < 9600 := by exact_mod_cast (by omega : k < 9600)
      norm_num
      linarith
    show (envStep p (envIter p sc g0 k) sc).held_time_s = _
    simp only [envStep, if_neg hopen, if_pos hsc]
    simp only [if_pos hheld]
    simp only [ihh, hper]
    push_cast
    ring

/-- Claim C5: with `holdTimeSeconds = 0.2` and a 48000 Hz sample rate, once
the sidechain level stays below the close threshold (the gate having just
opened, `held_time_s = 0`), each of the first 9600 per-sample updates still
applies the attack step `gate = min 1 (gate + attackRate)`, and the update of
sample 9600 (the 9601st) is the first to apply the release step
`gate = max 0 (gate - releaseRate)`. -/
theorem claim_c5_hold_window (p : GateParams) (sc g0 : Real)
    (hhold : p.hold_time = 0.2) (hper : p.sample_period_s = 1 / 48000)
    (hco : p.close_threshold ≤ p.open_threshold) (hsc : sc < p.close_threshold) :
    (∀ k < 9600,
      (envIter p sc g0 (k + 1)).gate = min 1 ((envIter p sc g0 k).gate + p.attack_rate)) ∧
    (envIter p sc g0 9601).gate = max 0 ((envIter p sc g0 9600).gate - p.release_rate) := by
  have hopen : ¬ (p.open_threshold < sc) := not_lt.mpr (hsc.le.trans hco)
  constructor
  · intro k hk
    have hheld : (envIter p sc g0 k).held_time_s < p.hold_time := by
      rw [envIter_held p sc g0 hhold hper hco hsc k (by omega), hhold]
      rw [div_lt_iff (by norm_num : (0 : Real) < 48000)]
      have hkr : (k : Real) < 9600 := by exact_mod_cast hk
      norm_num
      linarith
    show (envStep p (envIter p sc g0 k) sc).gate = _
    simp only [envStep, if_neg hopen, if_pos hsc]
    simp only [if_pos hheld]
    simp
  · have hheld : ¬ ((envIter p sc g0 9600).held_time_s < p.hold_time) := by
      rw [envIter_held p sc g0 hhold hper hco hsc 9600 le_rfl, hhold]
      norm_num
    show (envStep p (envIter p sc g0 9600) sc).gate = _
    simp only [envStep, if_neg hopen, if_pos hsc]
    simp only [if_neg hheld]
    simp

/-- Witness for claim C5 at the concrete parameter snapshot `c5params`. -/
theorem claim_c5_witness :
    (c5params.hold_time = 0.2 ∧ c5params.sample_period_s = 1 / 48000 ∧
      c5params.close_threshold ≤ c5params.open_threshold ∧
      (0 : Real) < c5params.close_threshold) ∧
    (envIter c5params 0 0 1).gate
        = min 1 ((envIter c5params 0 0 0).gate + c5params.attack_rate) ∧
    (envIter c5params 0 0 9601).gate
        = max 0 ((envIter c5params 0 0 9600).gate - c5params.release_rate) := by
  have h := claim_c5_hold_window c5params 0 0 (by norm_num [c5params])
    (by norm_num [c5params]) (by norm_num [c5params]) (by norm_num [c5params])
  exact ⟨⟨rfl, rfl, by norm_num [c5params], by norm_num [c5params]⟩,
    h.1 0 (by norm_num), h.2⟩

/-- Claim C9: a settings update on a live instance (one whose scratch buffer
has already been sized, `audio_buf_len ≠ 0`) leaves the envelope state
(`gate`, `isOpen`, `held_time_s`) and the ring-buffer state untouched, and
rewrites the derived parameter fields to the values dictated by the new
settings: ducking in progress is neither reset nor advanced. -/
theorem claim_c9_update_preserves_envelope (cd : DuckerData) (s : DuckerSettings)
    (sample_rate num_channels now : Nat) (hlive : cd.audio_buf_len ≠ 0) :
    (ducker_update cd s sample_rate num_channels now).gate = cd.gate ∧
    (ducker_update cd s sample_rate num_channels now).isOpen = cd.isOpen ∧
    (ducker_update cd s sample_rate num_channels now).held_time_s = cd.held_time_s ∧
    (ducker_update cd s sample_rate num_channels now).audio_buf_len = cd.audio_buf_len ∧
    (ducker_update cd s sample_rate num_channels now).sidechain_data = cd.sidechain_data ∧
    (ducker_update cd s sample_rate num_channels now).sidechain_buf = cd.sidechain_buf ∧
    (ducker_update cd s sample_rate num_channels now).max_sidechain_frames
      = cd.max_sidechain_frames ∧
    (ducker_update cd s sample_rate num_channels now).ratio = s.ratio ∧
    (ducker_update cd s sample_rate num_channels now).threshold_mul
      = db_to_mul s.threshold_db ∧
    (ducker_update cd s sample_rate num_channels now).open_threshold_mul
      = db_to_mul s.open_threshold_db ∧
    (ducker_update cd s sample_rate num_channels now).close_threshold_mul
      = db_to_mul s.close_threshold_db ∧
    (ducker_update cd s sample_rate num_channels now).limiter_threshold_mul
      = db_to_mul s.limiter_threshold_db ∧
    (ducker_update cd s sample_rate num_channels now).attack_rate
      = 1 / (ms_to_secf s.attack_time_ms * (sample_rate : Real)) ∧
    (ducker_update cd s sample_rate num_channels now).release_rate
      = 1 / (ms_to_secf s.release_time_ms * (sample_rate : Real)) ∧
    (ducker_update cd s sample_rate num_channels now).hold_time_s
      = ms_to_secf s.hold_time_ms ∧
    (ducker_update cd s sample_rate num_channels now).num_channels = num_channels ∧
    (ducker_update cd s sample_rate num_channels now).sample_rate = sample_rate ∧
    (ducker_update cd s sample_rate num_channels now).sample_period_s
      = 1 / (sample_rate : Real) := by
  unfold ducker_update
  by_cases hv : (s.ducking_source ≠ "" ∧ s.ducking_source ≠ "none")
  · by_cases hn : cd.sidechain_name = some s.ducking_source
    · simp [hv, hn, hlive]
    · simp [hv, hn, hlive]
  · simp [hv, hlive]

/-- Witness for claim C9 at a concrete live instance and settings. -/
theorem claim_c9_witness :
    ({ ducker_init 1 with audio_buf_len := 480 } : DuckerData).audio_buf_len ≠ 0 ∧
    (ducker_update { ducker_init 1 with audio_buf_len := 480 } c9settings 48000 2 0).gate
      = ({ ducker_init 1 with audio_buf_len := 480 } : DuckerData).gate ∧
    (ducker_update { ducker_init 1 with audio_buf_len := 480 } c9settings 48000 2 0).isOpen
      = ({ ducker_init 1 with audio_buf_len := 480 } : DuckerData).isOpen ∧
    (ducker_update { ducker_init 1 with audio_buf_len := 480 } c9settings 48000 2
        0).held_time_s
      = ({ ducker_init 1 with audio_buf_len := 480 } : DuckerData).held_time_s := by
  have h := claim_c9_update_preserves_envelope { ducker_init 1 with audio_buf_len := 480 }
    c9settings 48000 2 0 (by norm_num [ducker_init])
  exact ⟨by norm_num [ducker_init], h.1, h.2.1, h.2.2.1⟩

/-- A capture push never changes the active channel count. -/
theorem sidechain_capture_num_channels (cd : DuckerData) (b : CaptureBlock) :
    (sidechain_capture cd b).num_channels = cd.num_channels := by
  simp only [sidechain_capture]
  split_ifs <;> rfl

/-- A capture push raises the high-water mark to the incoming block size. -/
theorem sidechain_capture_max (cd : DuckerData) (b : CaptureBlock) :
    (sidechain_capture cd b).max_sidechain_frames
      = max cd.max_sidechain_frames b.frames := by
  simp only [sidechain_capture]
  split_ifs <;> rfl

/-- A capture push keeps the fixed number of channel slots. -/
theorem sidechain_capture_data_length (cd : DuckerData) (b : CaptureBlock) :
    (sidechain_capture cd b).sidechain_data.length = cd.sidechain_data.length := by
  simp only [sidechain_capture]
  split_ifs <;> simp [length_onFirst]

/-- Effect of one capture push on an active channel `i`: nothing if the
high-water mark is still 0; otherwise the channel is trimmed by one
high-water mark's worth when channel 0's backlog exceeds twice the mark, and
one block (zeros when muted) is appended. -/
theorem sidechain_capture_getD_lt (cd : DuckerData) (b : CaptureBlock) (i : Nat)
    (hi : i < cd.num_channels) (hd : i < cd.sidechain_data.length) :
    (sidechain_capture cd b).sidechain_data.getD i [] =
      if max cd.max_sidechain_frames b.frames = 0 then cd.sidechain_data.getD i []
      else
        (if (max cd.max_sidechain_frames b.frames) * 2
              < (cd.sidechain_data.getD 0 []).length then
            (cd.sidechain_data.getD i []).drop (max cd.max_sidechain_frames b.frames)
          else cd.sidechain_data.getD i []) ++
          (if b.muted then List.replicate b.frames 0 else b.data.getD i []) := by
  have hd' : i < (onFirst (fun _ q => List.drop (max cd.max_sidechain_frames b.frames) q)
      cd.num_channels cd.sidechain_data).length := by
    rw [length_onFirst]; exact hd
  simp only [sidechain_capture]
  by_cases h0 : max cd.max_sidechain_frames b.frames = 0
  · simp only [if_pos h0]
  · simp only [if_neg h0]
    by_cases htrim :
      (max cd.max_sidechain_frames b.frames) * 2 < (cd.sidechain_data.getD 0 []).length
    · simp only [if_pos htrim]
      by_cases hmut : b.muted = true
      · simp only [if_pos hmut]
        rw [getD_onFirst_lt _ _ _ _ hi hd', getD_onFirst_lt _ _ _ _ hi hd]
      · simp only [if_neg hmut]
        rw [getD_onFirst_lt _ _ _ _ hi hd', getD_onFirst_lt _ _ _ _ hi hd]
    · simp only [if_neg htrim]
      by_cases hmut : b.muted = true
      · simp only [if_pos hmut]
        rw [getD_onFirst_lt _ _ _ _ hi hd]
      · simp only [if_neg hmut]
        rw [getD_onFirst_lt _ _ _ _ hi hd]

/-- A capture push does not touch channels at or beyond the active count. -/
theorem sidechain_capture_getD_ge (cd : DuckerData) (b : CaptureBlock) (i : Nat)
    (hi : cd.num_channels ≤ i) :
    (sidechain_capture cd b).sidechain_data.getD i [] = cd.sidechain_data.getD i [] := by
  simp only [sidechain_capture]
  split_ifs <;> simp only [getD_onFirst_ge _ _ _ _ hi]

/-- One capture push preserves the ring-buffer invariant: channels stay in
lockstep and the backlog stays within three high-water marks. -/
theorem sidechain_capture_inv (cd : DuckerData) (b : CaptureBlock)
    (hinv : BufInv cd)
    (hwf : ∀ i, i < cd.num_channels → (b.data.getD i []).length = b.frames) :
    BufInv (sidechain_capture cd b) ∧
    (sidechain_capture cd b).num_channels = cd.num_channels := by
  obtain ⟨hlen8, hnc, hlock, hbound⟩ := hinv
  refine ⟨⟨?_, ?_, ?_, ?_⟩, sidechain_capture_num_channels cd b⟩
  · rw [sidechain_capture_data_length, hlen8]
  · rw [sidechain_capture_num_channels]; exact hnc
  · intro i hi
    rw [sidechain_capture_num_channels] at hi
    have h0nc : 0 < cd.num_channels := by omega
    have hd : i < cd.sidechain_data.length := by omega
    have hd0 : 0 < cd.sidechain_data.length := by omega
    rw [sidechain_capture_getD_lt cd b i hi hd, sidechain_capture_getD_lt cd b 0 h0nc hd0]
    by_cases h0 : max cd.max_sidechain_frames b.frames = 0
    · simp only [if_pos h0]
      exact hlock i hi
    · simp only [if_neg h0]
      by_cases htrim :
        (max cd.max_sidechain_frames b.frames) * 2 < (cd.sidechain_data.getD 0 []).length
      · simp only [if_pos htrim, List.length_append, List.length_drop]
        rw [hlock i hi]
        by_cases hmut : b.muted = true
        · simp only [if_pos hmut]
        · simp only [if_neg hmut]
          rw [hwf i hi, hwf 0 h0nc]
      · simp only [if_neg htrim, List.length_append]
        rw [hlock i hi]
        by_cases hmut : b.muted = true
        · simp only [if_pos hmut]
        · simp only [if_neg hmut]
          rw [hwf i hi, hwf 0 h0nc]
  · rw [sidechain_capture_max]
    by_cases hc : 0 < cd.num_channels
    · have hd0 : 0 < cd.sidechain_data.length := by omega
      rw [sidechain_capture_getD_lt cd b 0 hc hd0]
      by_cases h0 : max cd.max_sidechain_frames b.frames = 0
      · have hcmax : cd.max_sidechain_frames = 0 := by
          have := le_max_left cd.max_sidechain_frames b.frames
          omega
        simp only [if_pos h0]
        omega
      · simp only [if_neg h0]
        have hfle : b.frames ≤ max cd.max_sidechain_frames b.frames :=
          le_max_right _ _
        have hmle : 3 * cd.max_sidechain_frames ≤ 3 * max cd.max_sidechain_frames b.frames :=
          by have := le_max_left cd.max_sidechain_frames b.frames; omega
        have hpush :
            (if b.muted then List.replicate b.frames 0 else b.data.getD 0 []).length
              = b.frames := by
          by_cases hmut : b.muted = true
          · simp only [if_pos hmut, List.length_replicate]
          · simp only [if_neg hmut]; exact hwf 0 hc
        by_cases htrim :
          (max cd.max_sidechain_frames b.frames) * 2 < (cd.sidechain_data.getD 0 []).length
        · simp only [if_pos htrim, List.length_append, List.length_drop, hpush]
          omega
        · simp only [if_neg htrim, List.length_append, hpush]
          omega
    · have hge : cd.num_channels ≤ 0 := by omega
      rw [sidechain_capture_getD_ge cd b 0 hge]
      have := le_max_left cd.max_sidechain_frames b.frames
      omega

/-- The ring-buffer invariant holds after any sequence of capture pushes. -/
theorem foldl_capture_inv (blocks : List CaptureBlock) :
    ∀ cd : DuckerData, BufInv cd →
      (∀ b ∈ blocks, ∀ i, i < cd.num_channels → (b.data.getD i []).length = b.frames) →
      BufInv (blocks.foldl sidechain_capture cd) ∧
      (blocks.foldl sidechain_capture cd).num_channels = cd.num_channels := by
  induction blocks with
  | nil => intro cd h _; exact ⟨h, rfl⟩
  | cons b rest ih =>
    intro cd hinv hwf
    have hstep := sidechain_capture_inv cd b hinv (hwf b (by simp))
    have hrest := ih (sidechain_capture cd b) hstep.1 (by
      intro b' hb' i hi
      exact hwf b' (by simp [hb']) i (by rwa [hstep.2] at hi))
    refine ⟨by simpa using hrest.1, ?_⟩
    rw [List.foldl_cons, hrest.2, hstep.2]

/-- Counterexample to claim C2 as stated: starting from a fresh mono
instance, three one-frame pushes with no intervening pop leave 3 buffered
samples while the high-water mark is 1, so the backlog exceeds
`2 * maxSidechainFrames`. -/
theorem claim_c2_counterexample :
    ¬ ((c2state.sidechain_data.getD 0 []).length ≤ 2 * c2state.max_sidechain_frames) := by
  decide

/-- Claim C2, amended: pushing any sequence of capture blocks into a fresh
instance, with no intervening pop, never grows any active channel's backlog
beyond `3 * maxSidechainFrames` samples (the trim keeps the pre-append
backlog within twice the high-water mark, and the append adds at most one
more mark's worth). -/
theorem claim_c2_amended (nc : Nat) (blocks : List CaptureBlock)
    (hnc : nc ≤ MAX_AUDIO_CHANNELS)
    (hwf : ∀ b ∈ blocks, ∀ i, i < nc → (b.data.getD i []).length = b.frames) :
    ∀ i, i < nc →
      ((blocks.foldl sidechain_capture (ducker_init nc)).sidechain_data.getD i []).length
        ≤ 3 * (blocks.foldl sidechain_capture (ducker_init nc)).max_sidechain_frames := by
  have hinit : BufInv (ducker_init nc) := by
    refine ⟨by simp [ducker_init], by simpa [ducker_init] using hnc, ?_, by simp [ducker_init]⟩
    intro i hi
    simp [ducker_init]
  have h := foldl_capture_inv blocks (ducker_init nc) hinit
    (by simpa [ducker_init] using hwf)
  obtain ⟨⟨_, _, hlock, hbound⟩, hch⟩ := h
  intro i hi
  have hi' : i < (blocks.foldl sidechain_capture (ducker_init nc)).num_channels := by
    rw [hch]; simpa [ducker_init] using hi
  rw [hlock i hi']
  exact hbound

/-- Witness for the amended claim C2 at one concrete push. -/
theorem claim_c2_witness :
    (([c2block].foldl sidechain_capture (ducker_init 1)).sidechain_data.getD 0 []).length
      ≤ 3 * ([c2block].foldl sidechain_capture (ducker_init 1)).max_sidechain_frames := by
  refine claim_c2_amended 1 [c2block] (by norm_num [MAX_AUDIO_CHANNELS]) ?_ 0 (by norm_num)
  intro b hb i hi
  have hb' : b = c2block := by simpa using hb
  have hi' : i = 0 := by omega
  subst hb'
  subst hi'
  rfl

/-- Counterexample to claim C1 as stated: at `c1state` the (single active)
channel's ring buffer holds 1 sample, at least the requested `frameCount = 1`,
yet the pull removes nothing — the consumer's sufficiency test compares the
backlog against the scratch length `audio_buf_len = 2`, not against
`frameCount`. -/
theorem claim_c1_counterexample :
    1 ≤ (c1state.sidechain_data.getD 0 []).length ∧
    (get_sidechain_data c1state 1).sidechain_data.getD 0 [] ≠
      (c1state.sidechain_data.getD 0 []).drop 1 := by
  constructor
  · norm_num [c1state, ducker_init]
  · norm_num [c1state, ducker_init, get_sidechain_data, onFirst, onFirstAux]

/-- Claim C1, amended: the pull compares the first channel's backlog against
`audio_buf_len` samples (the scratch length, at least `frameCount`) rather
than `frameCount`: if the backlog reaches `audio_buf_len`, exactly the oldest
`audio_buf_len` samples are removed from each active channel and returned in
the scratch buffer; otherwise no samples are removed and the scratch buffer
is entirely zero-filled. -/
theorem claim_c1_amended (cd : DuckerData) (num_samples : Nat)
    (hlen : 0 < cd.audio_buf_len) :
    (cd.audio_buf_len ≤ (cd.sidechain_data.getD 0 []).length →
      ∀ i, i < cd.num_channels → i < cd.sidechain_data.length →
        i < cd.sidechain_buf.length →
        (get_sidechain_data cd num_samples).sidechain_data.getD i []
            = (cd.sidechain_data.getD i []).drop cd.audio_buf_len ∧
        (get_sidechain_data cd num_samples).sidechain_buf.getD i []
            = (cd.sidechain_data.getD i []).take cd.audio_buf_len) ∧
    ((cd.sidechain_data.getD 0 []).length < cd.audio_buf_len →
      (get_sidechain_data cd num_samples).sidechain_data = cd.sidechain_data ∧
      ∀ i, i < cd.num_channels → i < cd.sidechain_buf.length →
        (get_sidechain_data cd num_samples).sidechain_buf.getD i []
            = List.replicate cd.audio_buf_len 0) := by
  have h0 : ¬ (cd.audio_buf_len = 0) := by omega
  constructor
  · intro hge i hi hd hb
    have hnl : ¬ ((cd.sidechain_data.getD 0 []).length < cd.audio_buf_len) :=
      not_lt.mpr hge
    simp only [get_sidechain_data, if_neg h0, if_neg hnl]
    constructor
    · rw [getD_onFirst_lt _ _ _ _ hi hd]
    · rw [getD_onFirst_lt _ _ _ _ hi hb]
  · intro hlt
    simp only [get_sidechain_data, if_neg h0, if_pos hlt]
    refine ⟨by first | rfl | trivial, ?_⟩
    intro i hi hb
    rw [getD_onFirst_lt _ _ _ _ hi hb]

/-- Witness for the amended claim C1: at `c1wstate` the backlog (2 samples)
reaches the scratch length (1 sample), so the oldest sample is popped into
the scratch buffer and the younger one remains buffered. -/
theorem claim_c1_amended_witness :
    0 < c1wstate.audio_buf_len ∧
    (get_sidechain_data c1wstate 1).sidechain_data.getD 0 [] = [(6 : Real)] ∧
    (get_sidechain_data c1wstate 1).sidechain_buf.getD 0 [] = [(5 : Real)] := by
  have h := (claim_c1_amended c1wstate 1 (by norm_num [c1wstate, ducker_init])).1
    (by norm_num [c1wstate, ducker_init]) 0 (by norm_num [c1wstate, ducker_init])
    (by norm_num [c1wstate, ducker_init]) (by norm_num [c1wstate, ducker_init])
  refine ⟨by norm_num [c1wstate, ducker_init], ?_, ?_⟩
  · rw [h.1]
    norm_num [c1wstate, ducker_init]
  · rw [h.2]
    norm_num [c1wstate, ducker_init]

end Ducker
